import Mathlib

/-!
Verification development for the report_dispatcher filter-language compiler.

The repository (Rust) is shallowly embedded: each Lean definition mirrors one
Rust item of `src/ast.rs`, `src/token.rs`, `src/lexer.rs`, `src/parser.rs` or
`src/sql_compiler.rs`, keeping the source's names where Lean allows it.
Machine integers (`i64`, `usize`) are modelled as `Int` / `Nat`; fallible Rust
functions returning `Result` are modelled with `Except`.
-/

namespace ReportDispatcher

/-! ## AST (src/ast.rs) -/

/-- Comparison operators, mirroring `ast.rs` `CompOp`. -/
inductive CompOp where
  | Eq
  | NotEq
  | Gt
  | Lt
  | Gte
  | Lte
deriving DecidableEq, Repr

/-- Literal values, mirroring `ast.rs` `Literal` (`Number` holds an `i64`). -/
inductive Literal where
  | String (s : String)
  | Number (n : Int)
  | Date (d : String)
  | CurrentUser
deriving DecidableEq, Repr

/-- Condition expression tree, mirroring `ast.rs` `Condition`. -/
inductive Condition where
  | And (left right : Condition)
  | Or (left right : Condition)
  | Not (inner : Condition)
  | Grouped (inner : Condition)
  | Comparison (op : CompOp) (value : Literal)
  | In (values : List Literal)
  | IsNull
  | IsNotNull
deriving DecidableEq, Repr

/-- `ast.rs` `Identifier` is a newtype over `String`; modelled as `String`
(equality and hashing are by text in the source as well). -/
abbrev Identifier := String

/-- One field filter `field[condition]`, mirroring `ast.rs` `FieldFilter`. -/
structure FieldFilter where
  field : Identifier
  condition : Condition
deriving DecidableEq, Repr

/-- Cross filter `CrossFilter: <Source-Target> ...`, mirroring `ast.rs`. -/
structure CrossFilter where
  source_entity : Identifier
  target_entity : Identifier
  filters : List FieldFilter
deriving DecidableEq, Repr

/-- Root query node, mirroring `ast.rs` `Query`. -/
structure Query where
  base_filters : List FieldFilter
  cross_filters : List CrossFilter
deriving DecidableEq, Repr

/-! ## Compiler configuration and result types (src/sql_compiler.rs) -/

/-- Mirrors `OptimizationConfig` (defaults 5 and 1000). -/
structure OptimizationConfig where
  max_or_conditions_for_in : Nat
  max_in_values : Nat
deriving DecidableEq, Repr

/-- The `Default` impl of `OptimizationConfig`. -/
def OptimizationConfig.new : OptimizationConfig :=
  { max_or_conditions_for_in := 5, max_in_values := 1000 }

/-- Mirrors `BatchConfig` (defaults 500 and true). -/
structure BatchConfig where
  max_batch_size : Nat
  enable_batch_processing : Bool
deriving DecidableEq, Repr

/-- The `Default` impl of `BatchConfig`. -/
def BatchConfig.new : BatchConfig :=
  { max_batch_size := 500, enable_batch_processing := true }

/-- Mirrors `CompileError { message }`. -/
structure CompileError where
  message : String
deriving DecidableEq, Repr

/-- Mirrors the `Optimization` log-entry enum of `sql_compiler.rs`. -/
inductive Optimization where
  | OrToIn (field : String) (value_count : Nat)
  | InToUnion (field : String) (total_values : Nat) (union_count : Nat)
  | ConditionSimplification (original simplified : String)
  | RedundantConditionRemoval (removed_condition : String)
deriving DecidableEq, Repr

/-! ## Model of the sea-query expression values and statements

`sea-query` is an external dependency of the repository; the compiler builds
`SimpleExpr` values through a fixed set of its constructors and finally calls
`SelectStatement::to_string(PostgresQueryBuilder)`.  The constructors actually
used are modelled as an inductive type, and the final rendering as a
deterministic serialization (`renderSelect`); the spec explicitly leaves the
exact quoting conventions of the rendered SQL to the renderer. -/

/-- Model of `sea_query::Value` as constructed by `literal_to_value`
(`Value::String(Some(..))` and `Value::BigInt(Some(..))`). -/
inductive Value where
  | String (s : String)
  | BigInt (n : Int)
deriving DecidableEq, Repr

/-- Model of the `sea_query::SimpleExpr` shapes the compiler constructs. -/
inductive SimpleExpr where
  | Cmp (col : String) (op : CompOp) (v : Value)
  | BinAnd (l r : SimpleExpr)
  | BinOr (l r : SimpleExpr)
  | NotExpr (e : SimpleExpr)
  | InList (col : String) (vs : List Value)
  | IsNull (col : String)
  | IsNotNull (col : String)
  | ValBool (b : Bool)
  | ColEqCol (t1 c1 t2 c2 : String)
deriving DecidableEq, Repr

/-- Model of the parts of `sea_query::SelectStatement` the compiler fills in:
a `FROM` table, `SELECT *`, a list of inner joins (joined table text and the
`ON` expression) and the list of `and_where` contributions, in order. -/
structure SelectStatement where
  from_table : String
  joins : List (String × SimpleExpr)
  wheres : List SimpleExpr
deriving DecidableEq, Repr

/-- A single-quote character, used when a rendered string or error message in
the source contains one. -/
def sq : String := String.mk [Char.ofNat 39]

/-- Double-quote an identifier the way the Postgres builder does. -/
def dqIdent (s : String) : String := "\"" ++ s ++ "\""

/-- Render a value. String payloads are single-quoted, integers printed. -/
def renderValue : Value → String
  | .String s => sq ++ s ++ sq
  | .BigInt n => toString n

/-- Join a list of strings with a separator. -/
def joinSep (sep : String) : List String → String
  | [] => ""
  | [x] => x
  | x :: xs => x ++ sep ++ joinSep sep xs

/-- Printed form of a comparison operator. -/
def renderOp : CompOp → String
  | .Eq => "="
  | .NotEq => "<>"
  | .Gt => ">"
  | .Lt => "<"
  | .Gte => ">="
  | .Lte => "<="

/-- Deterministic rendering of a modelled `SimpleExpr`. -/
def renderExpr : SimpleExpr → String
  | .Cmp col op v => dqIdent col ++ " " ++ renderOp op ++ " " ++ renderValue v
  | .BinAnd l r => "(" ++ renderExpr l ++ " AND " ++ renderExpr r ++ ")"
  | .BinOr l r => "(" ++ renderExpr l ++ " OR " ++ renderExpr r ++ ")"
  | .NotExpr e => "NOT (" ++ renderExpr e ++ ")"
  | .InList col vs => dqIdent col ++ " IN (" ++ joinSep ", " (vs.map renderValue) ++ ")"
  | .IsNull col => dqIdent col ++ " IS NULL"
  | .IsNotNull col => dqIdent col ++ " IS NOT NULL"
  | .ValBool b => if b then "TRUE" else "FALSE"
  | .ColEqCol t1 c1 t2 c2 =>
      dqIdent t1 ++ "." ++ dqIdent c1 ++ " = " ++ dqIdent t2 ++ "." ++ dqIdent c2

/-- Deterministic rendering of a modelled `SelectStatement`, standing in for
`SelectStatement::to_string(PostgresQueryBuilder)`. -/
def renderSelect (s : SelectStatement) : String :=
  "SELECT * FROM " ++ dqIdent s.from_table
    ++ joinSep "" (s.joins.map (fun j =>
        " INNER JOIN " ++ dqIdent j.1 ++ " ON " ++ renderExpr j.2))
    ++ (if s.wheres.isEmpty then ""
        else " WHERE " ++ joinSep " AND " (s.wheres.map renderExpr))

/-- Mirrors `CompileResult { sql, optimizations }`. -/
structure CompileResult where
  sql : String
  optimizations : List Optimization
deriving DecidableEq, Repr

/-- Mirrors `BatchQueryResult { queries, optimizations, total_estimated_rows }`. -/
structure BatchQueryResult where
  queries : List String
  optimizations : List Optimization
  total_estimated_rows : Option Nat
deriving DecidableEq, Repr

/-! ## The SqlCompiler components -/

/-- Mirrors `DefaultQueryOptimizer { config }`. -/
structure DefaultQueryOptimizer where
  config : OptimizationConfig
deriving DecidableEq, Repr

/-- Mirrors `DefaultBatchProcessor { config }`. -/
structure DefaultBatchProcessor where
  config : BatchConfig
deriving DecidableEq, Repr

/-- Mirrors `DefaultTableMapper { mappings : HashMap<String,String> }`; the
hash map is modelled as an association list with unique keys. -/
structure DefaultTableMapper where
  mappings : List (String × String)
deriving DecidableEq, Repr

/-- Rust `str::to_lowercase` (the entities in play are ASCII). -/
def toLowerStr (s : String) : String := String.mk (s.toList.map Char.toLower)

/-- Mirrors `DefaultTableMapper::get_table_name`: mapped name, or the
lower-cased entity when no mapping entry exists. -/
def DefaultTableMapper.get_table_name (m : DefaultTableMapper) (entity : String) : String :=
  match m.mappings.lookup entity with
  | some t => t
  | none => toLowerStr entity

/-- Mirrors the `SqlCompiler` struct (optimizer + batch processor + mapper). -/
structure SqlCompiler where
  optimizer : DefaultQueryOptimizer
  batch_processor : DefaultBatchProcessor
  table_mapper : DefaultTableMapper
deriving DecidableEq, Repr

/-- Mirrors `SqlCompiler::new()` (all components with default configs,
empty table mapping). -/
def SqlCompiler.new : SqlCompiler :=
  { optimizer := { config := OptimizationConfig.new }
    batch_processor := { config := BatchConfig.new }
    table_mapper := { mappings := [] } }

/-! ## Condition compiler (src/sql_compiler.rs, impl SqlCompiler) -/

/-- Mirrors `literal_to_value`: every arm returns `Ok`. -/
def literal_to_value (literal : Literal) : Except CompileError Value :=
  match literal with
  | .String s => .ok (.String s)
  | .Number n => .ok (.BigInt n)
  | .Date d =>
      if d = "today" then .ok (.String "CURRENT_DATE")
      else if d = "yesterday" then .ok (.String ("CURRENT_DATE - INTERVAL " ++ sq ++ "1 day" ++ sq))
      else if d = "tomorrow" then .ok (.String ("CURRENT_DATE + INTERVAL " ++ sq ++ "1 day" ++ sq))
      else .ok (.String d)
  | .CurrentUser => .ok (.String "CURRENT_USER")

/-- Rust `iter().map(f).collect::<Result<Vec<_>,_>>()`: stop at the first
error, otherwise collect all `Ok` payloads in order. -/
def collect_results (f : α → Except ε β) : List α → Except ε (List β)
  | [] => .ok []
  | a :: as => do
      let b ← f a
      let bs ← collect_results f as
      .ok (b :: bs)

/-- Mirrors `compile_comparison`. -/
def compile_comparison (field : String) (op : CompOp) (value : Literal) :
    Except CompileError SimpleExpr := do
  let val ← literal_to_value value
  .ok (.Cmp field op val)

/-- Mirrors `collect_equality_values`: push the value of an `Eq` comparison,
recurse through `Or` and `Grouped`, and silently skip every other node shape
(the source comment says other condition kinds break the equality pattern,
but the implementation keeps collecting past them). -/
def collect_equality_values : Condition → List Literal
  | .Comparison .Eq value => [value]
  | .Or left right => collect_equality_values left ++ collect_equality_values right
  | .Grouped inner => collect_equality_values inner
  | _ => []

/-- Mirrors `extract_equality_values_from_or` (the target field is unused in
the source as well). -/
def extract_equality_values_from_or (condition : Condition) : List Literal :=
  collect_equality_values condition

/-- The recursion of `list_chunks`, structural on a fuel bound for the list
length (each step with a positive chunk size consumes at least one element,
so `l.length` fuel always suffices). -/
def list_chunks_go (n : Nat) : Nat → List α → List (List α)
  | _, [] => []
  | 0, _ :: _ => []
  | fuel + 1, x :: xs =>
      if n = 0 then []
      else (x :: xs).take n :: list_chunks_go n fuel ((x :: xs).drop n)

/-- Rust `Vec::chunks(n)` collected to owned vectors (`create_batches`, and
the chunking in `split_large_in_to_union`).  `chunks(0)` panics in Rust; the
model returns no chunks for chunk size 0 and results about chunking therefore
assume a positive chunk size. -/
def list_chunks (n : Nat) (l : List α) : List (List α) :=
  list_chunks_go n l.length l

/-- Rust `into_iter().reduce(|acc, e| acc.or(e)).unwrap()`: left fold with
`or`.  The `unwrap` panics on an empty list in Rust; the model returns a
`TRUE` constant there (the compiler only reaches it with nonempty input). -/
def reduce_or : List SimpleExpr → SimpleExpr
  | [] => .ValBool true
  | x :: xs => xs.foldl SimpleExpr.BinOr x

/-- Mirrors `combine_conditions_with_and`: `TRUE` for no conditions, else
`reduce(|acc, e| acc.and(e)).unwrap()`. -/
def combine_conditions_with_and : List SimpleExpr → SimpleExpr
  | [] => .ValBool true
  | x :: xs => xs.foldl SimpleExpr.BinAnd x

/-- Mirrors `split_large_in_to_union`. -/
def split_large_in_to_union (field : String) (values : List Value)
    (config : OptimizationConfig) : SimpleExpr × Optimization :=
  let chunk_size := config.max_in_values
  let chunks := list_chunks chunk_size values
  let union_count := chunks.length
  let conditions := chunks.map (fun chunk => SimpleExpr.InList field chunk)
  let combined := reduce_or conditions
  (combined, .InToUnion field values.length union_count)

/-- Mirrors `try_optimize_or_to_in`. -/
def try_optimize_or_to_in (field : String) (condition : Condition)
    (config : OptimizationConfig) :
    Except CompileError (Option (SimpleExpr × Optimization)) := do
  let equality_values := extract_equality_values_from_or condition
  if equality_values.length ≥ config.max_or_conditions_for_in then
    let in_values ← collect_results literal_to_value equality_values
    .ok (some (.InList field in_values, .OrToIn field equality_values.length))
  else
    .ok none

/-- Mirrors `compile_condition`.  Note two behaviours taken directly from the
source: the `Or` arm hands the whole node to `try_optimize_or_to_in`, and the
`Grouped` arm keeps only the `.0` component of the recursive call, discarding
the inner optimization log. -/
def compile_condition (config : OptimizationConfig) (field : String) :
    Condition → Except CompileError (SimpleExpr × List Optimization)
  | .Comparison op value => do
      let e ← compile_comparison field op value
      .ok (e, [])
  | .And left right => do
      let (left_expr, left_opts) ← compile_condition config field left
      let (right_expr, right_opts) ← compile_condition config field right
      .ok (.BinAnd left_expr right_expr, left_opts ++ right_opts)
  | .Or left right => do
      match ← try_optimize_or_to_in field (.Or left right) config with
      | some (in_expr, opt) => .ok (in_expr, [opt])
      | none =>
          let (left_expr, left_opts) ← compile_condition config field left
          let (right_expr, right_opts) ← compile_condition config field right
          .ok (.BinOr left_expr right_expr, left_opts ++ right_opts)
  | .Not inner => do
      let (inner_expr, inner_opts) ← compile_condition config field inner
      .ok (.NotExpr inner_expr, inner_opts)
  | .Grouped inner => do
      let p ← compile_condition config field inner
      .ok (p.1, [])
  | .In values => do
      let in_values ← collect_results literal_to_value values
      if in_values.length > config.max_in_values then
        let (e, opt) := split_large_in_to_union field in_values config
        .ok (e, [opt])
      else
        .ok (.InList field in_values, [])
  | .IsNull => .ok (.IsNull field, [])
  | .IsNotNull => .ok (.IsNotNull field, [])

/-! ## Statement assembly (impl SqlCompiler, `compile` and helpers) -/

/-- Mirrors `compile_field_filters`: compile each filter against the
table-qualified field name, collect the optimization logs in order, and
combine the compiled conditions with `AND`. -/
def compile_field_filters (self : SqlCompiler) (filters : List FieldFilter)
    (entity : String) : Except CompileError (SimpleExpr × List Optimization) := do
  let config := self.optimizer.config
  let table_name := self.table_mapper.get_table_name entity
  let pairs ← collect_results
    (fun filter => compile_condition config (table_name ++ "." ++ filter.field) filter.condition)
    filters
  let conditions := pairs.map (fun p => p.1)
  let optimizations := (pairs.map (fun p => p.2)).flatten
  .ok (combine_conditions_with_and conditions, optimizations)

/-- Mirrors `compile_cross_filter`; the source increments the shared
`join_index` at entry, so the filters are qualified with
`joined_table_<join_index+1>`. -/
def compile_cross_filter (self : SqlCompiler) (cross_filter : CrossFilter)
    (join_index : Nat) : Except CompileError (SimpleExpr × List Optimization) := do
  let config := self.optimizer.config
  let j := join_index + 1
  let pairs ← collect_results
    (fun filter =>
      compile_condition config ("joined_table_" ++ toString j ++ "." ++ filter.field)
        filter.condition)
    cross_filter.filters
  let conditions := pairs.map (fun p => p.1)
  let optimizations := (pairs.map (fun p => p.2)).flatten
  .ok (combine_conditions_with_and conditions, optimizations)

/-- The cross-filter loop of `SqlCompiler::compile`: for each cross filter,
compile its conditions (advancing the join index), add one inner join
`<target table> AS joined_table_<n>` on equality of the `id` columns, and add
the compiled conjunction as one more `WHERE` contribution. -/
def compile_cross_loop (self : SqlCompiler) (entity : String) :
    List CrossFilter → Nat →
    Except CompileError (List (String × SimpleExpr) × List SimpleExpr × List Optimization)
  | [], _ => .ok ([], [], [])
  | cross_filter :: rest, join_index => do
      let (join_conditions, cross_opts) ← compile_cross_filter self cross_filter join_index
      let j := join_index + 1
      let join_table_name := self.table_mapper.get_table_name cross_filter.target_entity
      let join_entry :=
        (join_table_name ++ " AS joined_table_" ++ toString j,
         SimpleExpr.ColEqCol (self.table_mapper.get_table_name entity) "id"
           ("joined_table_" ++ toString j) "id")
      let (joins, wheres, opts) ← compile_cross_loop self entity rest j
      .ok (join_entry :: joins, join_conditions :: wheres, cross_opts ++ opts)

/-- Mirrors `SqlCompiler::compile` (the `QueryCompiler` impl): resolve the
primary table, compile base filters into one `WHERE` contribution when
present, process each cross filter into a join plus a `WHERE` contribution,
and render the final statement. -/
def SqlCompiler.compile (self : SqlCompiler) (query : Query) (entity : String) :
    Except CompileError CompileResult := do
  let table_name := self.table_mapper.get_table_name entity
  let (base_wheres, base_opts) ←
    if query.base_filters.isEmpty then
      .ok (([] : List SimpleExpr), ([] : List Optimization))
    else do
      let (conditions, filter_opts) ← compile_field_filters self query.base_filters entity
      .ok ([conditions], filter_opts)
  let (joins, cross_wheres, cross_opts) ← compile_cross_loop self entity query.cross_filters 0
  let select : SelectStatement :=
    { from_table := table_name, joins := joins, wheres := base_wheres ++ cross_wheres }
  .ok { sql := renderSelect select, optimizations := base_opts ++ cross_opts }

/-! ## Batch planner (impl DefaultBatchProcessor) -/

/-- Mirrors `extract_large_in_from_condition`: the first `In` node whose
value count exceeds the threshold, found by a left-biased search through
`And`/`Or`/`Not`/`Grouped`. -/
def extract_large_in_from_condition (field : String) (condition : Condition)
    (max_batch_size : Nat) : Option (String × List Literal) :=
  match condition with
  | .In values =>
      if values.length > max_batch_size then some (field, values) else none
  | .And left right =>
      (extract_large_in_from_condition field left max_batch_size).orElse
        (fun _ => extract_large_in_from_condition field right max_batch_size)
  | .Or left right =>
      (extract_large_in_from_condition field left max_batch_size).orElse
        (fun _ => extract_large_in_from_condition field right max_batch_size)
  | .Not inner => extract_large_in_from_condition field inner max_batch_size
  | .Grouped inner => extract_large_in_from_condition field inner max_batch_size
  | _ => none

/-- Mirrors `find_large_in_conditions`: scan base filters first, then every
cross filter's filters, collecting one oversized `In` per filter. -/
def find_large_in_conditions (query : Query) (max_batch_size : Nat) :
    List (String × List Literal) :=
  (query.base_filters.filterMap
    (fun filter => extract_large_in_from_condition filter.field filter.condition max_batch_size))
  ++ (query.cross_filters.map
      (fun cross_filter => cross_filter.filters.filterMap
        (fun filter =>
          extract_large_in_from_condition filter.field filter.condition max_batch_size))).flatten

/-- Mirrors `create_batches`: `values.chunks(batch_size)` collected. -/
def create_batches (values : List Literal) (batch_size : Nat) : List (List Literal) :=
  list_chunks batch_size values

/-- Mirrors `replace_in_condition_with_batch`.  The source body is EMPTY (its
comment admits it is a simplified implementation that does not traverse the
AST), so the query is returned unchanged. -/
def replace_in_condition_with_batch (query : Query) (_field : String)
    (_batch : List Literal) : Query :=
  query

/-- Mirrors `DefaultBatchProcessor::compile_batch`.  Note, straight from the
source: every compilation inside this function uses `SqlCompiler::new()`
(default configs, empty table mapping), and the per-chunk query is the result
of the no-op `replace_in_condition_with_batch`. -/
def compile_batch (query : Query) (entity : String) (config : BatchConfig) :
    Except CompileError BatchQueryResult :=
  if !config.enable_batch_processing then do
    let result ← SqlCompiler.new.compile query entity
    .ok { queries := [result.sql], optimizations := result.optimizations,
          total_estimated_rows := none }
  else
    let large_in_conditions := find_large_in_conditions query config.max_batch_size
    if large_in_conditions.isEmpty then do
      let result ← SqlCompiler.new.compile query entity
      .ok { queries := [result.sql], optimizations := result.optimizations,
            total_estimated_rows := none }
    else do
      let batch_queries := (large_in_conditions.map (fun fv =>
        (create_batches fv.2 config.max_batch_size).map
          (fun batch => replace_in_condition_with_batch query fv.1 batch))).flatten
      let results ← collect_results (fun bq => SqlCompiler.new.compile bq entity) batch_queries
      let all_queries := results.map (fun r => r.sql)
      let all_optimizations := (results.map (fun r => r.optimizations)).flatten
        ++ [Optimization.InToUnion "batch_processing" all_queries.length all_queries.length]
      .ok { queries := all_queries, optimizations := all_optimizations,
            total_estimated_rows := some (all_queries.length * config.max_batch_size) }

/-- Mirrors `SqlCompiler::compile_batch_query`: delegate to the batch
processor with the processor's own stored config. -/
def SqlCompiler.compile_batch_query (self : SqlCompiler) (query : Query)
    (entity : String) : Except CompileError BatchQueryResult :=
  compile_batch query entity self.batch_processor.config

/-! ## Tokens (src/token.rs) -/

/-- Byte span, mirroring `token.rs` `Span { start, end }` (the `end` field is
named `stop` here because `end` is reserved in Lean). -/
structure Span where
  start : Nat
  stop : Nat
deriving DecidableEq, Repr

/-- Token kinds, mirroring `token.rs` `TokenKind` exactly.  Note that the
declared punctuation is `( ) [ ] ; -` only: the enum has NO comma variant. -/
inductive TokenKind where
  | Filter
  | CrossFilter
  | And
  | Or
  | Not
  | In
  | Is
  | Null
  | Identifier (s : String)
  | String (s : String)
  | Number (n : Int)
  | Today
  | Yesterday
  | Tomorrow
  | CurrentUser
  | LParen
  | RParen
  | LBracket
  | RBracket
  | Semicolon
  | Dash
  | Eq
  | NotEq
  | Gt
  | Lt
  | Gte
  | Lte
  | Illegal
  | Eof
deriving DecidableEq, Repr

/-- Mirrors `token.rs` `Token { kind, span }`. -/
structure Token where
  kind : TokenKind
  span : Span
deriving DecidableEq, Repr

/-! ## Lexer (src/lexer.rs)

The Rust lexer walks a `&str` by byte position.  The model walks the
character list and advances the byte position by `Char.utf8Size`, which is
exactly `char::len_utf8`. -/

/-- Mirrors `skip_whitespace`: drop leading whitespace, advancing the byte
position. -/
def skip_whitespace : List Char → Nat → List Char × Nat
  | [], pos => ([], pos)
  | c :: rest, pos =>
      if c.isWhitespace then skip_whitespace rest (pos + c.utf8Size)
      else (c :: rest, pos)

/-- The digit-consuming loop of `read_number`. -/
def take_digits : List Char → Nat → List Char × List Char × Nat
  | [], pos => ([], [], pos)
  | c :: rest, pos =>
      if c.isDigit then
        let (ds, rem, p) := take_digits rest (pos + c.utf8Size)
        (c :: ds, rem, p)
      else ([], c :: rest, pos)

/-- Rust `"<digits>".parse::<i64>().unwrap_or(0)`: the digit run as an `i64`,
or 0 when it overflows. -/
def parse_i64 (digits : List Char) : Int :=
  let n : Nat := digits.foldl (fun acc c => acc * 10 + (c.toNat - 48)) 0
  if n ≤ 9223372036854775807 then (n : Int) else 0

/-- The content-consuming loop of `read_string`: everything up to the next
double quote (or end of input). -/
def take_string_content : List Char → Nat → List Char × List Char × Nat
  | [], pos => ([], [], pos)
  | c :: rest, pos =>
      if c = '"' then ([], c :: rest, pos)
      else
        let (cs, rem, p) := take_string_content rest (pos + c.utf8Size)
        (c :: cs, rem, p)

/-- The character class of `read_identifier`'s loop:
alphanumeric, hyphen or underscore. -/
def is_ident_char (c : Char) : Bool :=
  c.isAlphanum || c = '-' || c = '_'

/-- The identifier-consuming loop of `read_identifier`. -/
def take_ident : List Char → Nat → List Char × List Char × Nat
  | [], pos => ([], [], pos)
  | c :: rest, pos =>
      if is_ident_char c then
        let (cs, rem, p) := take_ident rest (pos + c.utf8Size)
        (c :: cs, rem, p)
      else ([], c :: rest, pos)

/-- Mirrors the free function `match_keyword` (case-insensitive keyword
table, otherwise an identifier). -/
def match_keyword (s : String) : TokenKind :=
  let l := toLowerStr s
  if l = "and" then .And
  else if l = "or" then .Or
  else if l = "not" then .Not
  else if l = "in" then .In
  else if l = "is" then .Is
  else if l = "null" then .Null
  else if l = "today" then .Today
  else if l = "yesterday" then .Yesterday
  else if l = "tomorrow" then .Tomorrow
  else if l = "current_user" then .CurrentUser
  else .Identifier s

/-- Mirrors `read_identifier` including the compound-keyword check: an
identifier-shaped run immediately followed by a colon becomes `Filter` /
`CrossFilter`, consuming the colon. -/
def read_identifier (first : Char) (rest : List Char) (start : Nat) :
    Token × List Char × Nat :=
  let (cs, rem, p) := take_ident rest (start + first.utf8Size)
  let literal := String.mk (first :: cs)
  match rem with
  | ':' :: rem2 =>
      if toLowerStr literal = "filter" then
        (⟨.Filter, ⟨start, p + 1⟩⟩, rem2, p + 1)
      else if toLowerStr literal = "crossfilter" then
        (⟨.CrossFilter, ⟨start, p + 1⟩⟩, rem2, p + 1)
      else (⟨match_keyword literal, ⟨start, p⟩⟩, rem, p)
  | _ => (⟨match_keyword literal, ⟨start, p⟩⟩, rem, p)

/-- Mirrors one step of the `Iterator` impl for `Lexer`: skip whitespace,
then produce the next token, the remaining input and the new byte position.
Note the `match` has no arm for the comma character, which therefore falls
through to the catch-all `Illegal` arm. -/
def next_token (input : List Char) (pos : Nat) : Option (Token × List Char × Nat) :=
  let (input, start) := skip_whitespace input pos
  match input with
  | [] => none
  | c :: rest =>
    let p1 := start + c.utf8Size
    if c = '=' then some (⟨.Eq, ⟨start, p1⟩⟩, rest, p1)
    else if c = '(' then some (⟨.LParen, ⟨start, p1⟩⟩, rest, p1)
    else if c = ')' then some (⟨.RParen, ⟨start, p1⟩⟩, rest, p1)
    else if c = '[' then some (⟨.LBracket, ⟨start, p1⟩⟩, rest, p1)
    else if c = ']' then some (⟨.RBracket, ⟨start, p1⟩⟩, rest, p1)
    else if c = '<' then
      match rest with
      | '=' :: rest2 => some (⟨.Lte, ⟨start, p1 + 1⟩⟩, rest2, p1 + 1)
      | _ => some (⟨.Lt, ⟨start, p1⟩⟩, rest, p1)
    else if c = '>' then
      match rest with
      | '=' :: rest2 => some (⟨.Gte, ⟨start, p1 + 1⟩⟩, rest2, p1 + 1)
      | _ => some (⟨.Gt, ⟨start, p1⟩⟩, rest, p1)
    else if c = '!' then
      match rest with
      | '=' :: rest2 => some (⟨.NotEq, ⟨start, p1 + 1⟩⟩, rest2, p1 + 1)
      | _ => some (⟨.Illegal, ⟨start, p1⟩⟩, rest, p1)
    else if c = ';' then some (⟨.Semicolon, ⟨start, p1⟩⟩, rest, p1)
    else if c = '-' then some (⟨.Dash, ⟨start, p1⟩⟩, rest, p1)
    else if c = '"' then
      let (content, rem, p2) := take_string_content rest p1
      match rem with
      | '"' :: rem2 => some (⟨.String (String.mk content), ⟨start, p2 + 1⟩⟩, rem2, p2 + 1)
      | _ => some (⟨.String (String.mk content), ⟨start, p2⟩⟩, rem, p2)
    else if c.isDigit then
      let (ds, rem, p2) := take_digits (c :: rest) start
      some (⟨.Number (parse_i64 ds), ⟨start, p2⟩⟩, rem, p2)
    else if c.isAlpha then
      let (tok, rem, p2) := read_identifier c rest start
      some (tok, rem, p2)
    else some (⟨.Illegal, ⟨start, p1⟩⟩, rest, p1)

/-- Fuel-driven iteration of `next_token`, modelling `Lexer::collect()`. -/
def tokenize_go : Nat → List Char → Nat → List Token
  | 0, _, _ => []
  | fuel + 1, input, pos =>
      match next_token input pos with
      | none => []
      | some (tok, rest, p) => tok :: tokenize_go fuel rest p

/-- Collect every token of a source string (the lexer emits at least one
character per token, so `length + 1` fuel always suffices). -/
def tokenize (s : String) : List Token :=
  tokenize_go (s.toList.length + 1) s.toList 0

/-! ## Parser (src/parser.rs)

The Rust parser is a struct holding the token slice and a cursor; the model
passes the token list and the position explicitly, and each parsing function
returns the parsed value together with the new position.  The `while`/`loop`
constructs and the recursive descent are driven by a fuel parameter; every
function checks fuel at entry and hands the decremented fuel to every call,
so any sufficiently large fuel reproduces the Rust behaviour. -/

/-- Mirrors `ParseError { message, span }`. -/
structure ParseError where
  message : String
  span : Option Span
deriving DecidableEq, Repr

/-- Discriminant of a `TokenKind`, modelling `std::mem::discriminant`
(payloads ignored). -/
def kind_tag : TokenKind → Nat
  | .Filter => 0
  | .CrossFilter => 1
  | .And => 2
  | .Or => 3
  | .Not => 4
  | .In => 5
  | .Is => 6
  | .Null => 7
  | .Identifier _ => 8
  | .String _ => 9
  | .Number _ => 10
  | .Today => 11
  | .Yesterday => 12
  | .Tomorrow => 13
  | .CurrentUser => 14
  | .LParen => 15
  | .RParen => 16
  | .LBracket => 17
  | .RBracket => 18
  | .Semicolon => 19
  | .Dash => 20
  | .Eq => 21
  | .NotEq => 22
  | .Gt => 23
  | .Lt => 24
  | .Gte => 25
  | .Lte => 26
  | .Illegal => 27
  | .Eof => 28

/-- Debug rendering of a `TokenKind`, standing in for Rust `{:?}` output in
parser error messages. -/
def token_kind_debug : TokenKind → String
  | .Filter => "Filter"
  | .CrossFilter => "CrossFilter"
  | .And => "And"
  | .Or => "Or"
  | .Not => "Not"
  | .In => "In"
  | .Is => "Is"
  | .Null => "Null"
  | .Identifier s => "Identifier(\"" ++ s ++ "\")"
  | .String s => "String(\"" ++ s ++ "\")"
  | .Number n => "Number(" ++ toString n ++ ")"
  | .Today => "Today"
  | .Yesterday => "Yesterday"
  | .Tomorrow => "Tomorrow"
  | .CurrentUser => "CurrentUser"
  | .LParen => "LParen"
  | .RParen => "RParen"
  | .LBracket => "LBracket"
  | .RBracket => "RBracket"
  | .Semicolon => "Semicolon"
  | .Dash => "Dash"
  | .Eq => "Eq"
  | .NotEq => "NotEq"
  | .Gt => "Gt"
  | .Lt => "Lt"
  | .Gte => "Gte"
  | .Lte => "Lte"
  | .Illegal => "Illegal"
  | .Eof => "Eof"

/-- Mirrors `Parser::expect`: consume the current token when its discriminant
matches, otherwise fail at its span (or without a span at end of input). -/
def expect (toks : List Token) (pos : Nat) (expected : TokenKind) :
    Except ParseError (Token × Nat) :=
  match toks.get? pos with
  | some t =>
      if kind_tag t.kind = kind_tag expected then .ok (t, pos + 1)
      else .error ⟨"Expected " ++ token_kind_debug expected ++ ", found "
        ++ token_kind_debug t.kind, some t.span⟩
  | none => .error ⟨"Expected " ++ token_kind_debug expected
      ++ ", but reached end of input", none⟩

/-- The call `self.expect(TokenKind::Comma)` in the source's IN-list loop
names a variant that `token.rs` does not declare (`TokenKind` has no comma
kind), so no token can ever satisfy the expectation; it is modelled as an
expectation that fails at the current token. -/
def expect_comma (toks : List Token) (pos : Nat) : Except ParseError (Token × Nat) :=
  match toks.get? pos with
  | some t => .error ⟨"Expected Comma, found " ++ token_kind_debug t.kind, some t.span⟩
  | none => .error ⟨"Expected Comma, but reached end of input", none⟩

/-- Mirrors `Parser::match_token` (discriminant comparison of the current
token, `false` at end of input). -/
def match_token (toks : List Token) (pos : Nat) (kind : TokenKind) : Bool :=
  match toks.get? pos with
  | some t => kind_tag t.kind = kind_tag kind
  | none => false

/-- Mirrors `Parser::is_comparison_operator`. -/
def is_comparison_operator (toks : List Token) (pos : Nat) : Bool :=
  match toks.get? pos with
  | some t =>
      match t.kind with
      | .Eq | .NotEq | .Gt | .Lt | .Gte | .Lte => true
      | _ => false
  | none => false

/-- Mirrors `parse_literal`. -/
def parse_literal (toks : List Token) (pos : Nat) : Except ParseError (Literal × Nat) :=
  match toks.get? pos with
  | some t =>
      match t.kind with
      | .String s => .ok (.String s, pos + 1)
      | .Number n => .ok (.Number n, pos + 1)
      | .Today => .ok (.Date "today", pos + 1)
      | .Yesterday => .ok (.Date "yesterday", pos + 1)
      | .Tomorrow => .ok (.Date "tomorrow", pos + 1)
      | .CurrentUser => .ok (.CurrentUser, pos + 1)
      | .Identifier s => .ok (.String s, pos + 1)
      | k => .error ⟨"Expected literal value, found " ++ token_kind_debug k, some t.span⟩
  | none => .error ⟨"Expected literal value", none⟩

/-- Mirrors `parse_comparison_operator`. -/
def parse_comparison_operator (toks : List Token) (pos : Nat) :
    Except ParseError (CompOp × Nat) :=
  match toks.get? pos with
  | some t =>
      match t.kind with
      | .Eq => .ok (.Eq, pos + 1)
      | .NotEq => .ok (.NotEq, pos + 1)
      | .Gt => .ok (.Gt, pos + 1)
      | .Lt => .ok (.Lt, pos + 1)
      | .Gte => .ok (.Gte, pos + 1)
      | .Lte => .ok (.Lte, pos + 1)
      | k => .error ⟨"Expected comparison operator, found " ++ token_kind_debug k,
          some t.span⟩
  | none => .error ⟨"Expected comparison operator", none⟩

/-- Rust `str::split('-')` on the character list: `n` hyphens produce
`n + 1` parts, empty parts included. -/
def split_dash : List Char → List (List Char)
  | [] => [[]]
  | c :: rest =>
      if c = '-' then [] :: split_dash rest
      else
        match split_dash rest with
        | [] => [[c]]
        | p :: ps => (c :: p) :: ps

/-- The error message of `parse_cross_filter` for an entity identifier that
does not split into exactly two parts. -/
def cross_err_msg (entity_name : String) : String :=
  "Entity identifier " ++ sq ++ entity_name ++ sq ++ " must be in format "
    ++ sq ++ "Source-Target" ++ sq

/-- The mutually recursive condition grammar of `parser.rs`
(`parse_or_expression`, `parse_and_expression`, `parse_not_expression`,
`parse_primary_expression`, their `while` loops and the IN-list `loop`),
packaged as one record of parsing functions per fuel level: the functions at
fuel `n + 1` call the functions at fuel `n`.  (The recursion is layered over
the fuel parameter rather than written as a Lean `mutual` block so that the
definitions reduce definitionally in concrete evaluations.) -/
structure CondParsers where
  or_expr : List Token → Nat → Except ParseError (Condition × Nat)
  or_loop : List Token → Condition → Nat → Except ParseError (Condition × Nat)
  and_expr : List Token → Nat → Except ParseError (Condition × Nat)
  and_loop : List Token → Condition → Nat → Except ParseError (Condition × Nat)
  not_expr : List Token → Nat → Except ParseError (Condition × Nat)
  primary : List Token → Nat → Except ParseError (Condition × Nat)
  in_values : List Token → Nat → List Literal → Except ParseError (List Literal × Nat)
  cond : List Token → Nat → Except ParseError (Condition × Nat)

/-- The condition parsers at each fuel level; out of fuel means a parse
error (any sufficiently large fuel reproduces the Rust behaviour, whose
recursion depth is bounded by the token count). -/
def cond_parsers : Nat → CondParsers
  | 0 =>
      { or_expr := fun _ _ => .error ⟨"recursion limit reached", none⟩
        or_loop := fun _ _ _ => .error ⟨"recursion limit reached", none⟩
        and_expr := fun _ _ => .error ⟨"recursion limit reached", none⟩
        and_loop := fun _ _ _ => .error ⟨"recursion limit reached", none⟩
        not_expr := fun _ _ => .error ⟨"recursion limit reached", none⟩
        primary := fun _ _ => .error ⟨"recursion limit reached", none⟩
        in_values := fun _ _ _ => .error ⟨"recursion limit reached", none⟩
        cond := fun _ _ => .error ⟨"recursion limit reached", none⟩ }
  | fuel + 1 =>
      let prev := cond_parsers fuel
      { -- mirrors `parse_or_expression` (left-associative OR chain)
        or_expr := fun toks pos => do
          let (left, p) ← prev.and_expr toks pos
          prev.or_loop toks left p
        -- the `while` loop of `parse_or_expression`
        or_loop := fun toks left pos =>
          if match_token toks pos .Or then do
            let (right, p) ← prev.and_expr toks (pos + 1)
            prev.or_loop toks (.Or left right) p
          else .ok (left, pos)
        -- mirrors `parse_and_expression` (left-associative AND chain)
        and_expr := fun toks pos => do
          let (left, p) ← prev.not_expr toks pos
          prev.and_loop toks left p
        -- the `while` loop of `parse_and_expression`
        and_loop := fun toks left pos =>
          if match_token toks pos .And then do
            let (right, p) ← prev.not_expr toks (pos + 1)
            prev.and_loop toks (.And left right) p
          else .ok (left, pos)
        -- mirrors `parse_not_expression` (chainable NOT)
        not_expr := fun toks pos =>
          if match_token toks pos .Not then do
            let (expr, p) ← prev.not_expr toks (pos + 1)
            .ok (.Not expr, p)
          else prev.primary toks pos
        -- mirrors `parse_primary_expression`
        primary := fun toks pos =>
          match toks.get? pos with
          | some t =>
              match t.kind with
              | .LParen => do
                  let (expr, p) ← prev.cond toks (pos + 1)
                  let (_, p2) ← expect toks p .RParen
                  .ok (.Grouped expr, p2)
              | .Is =>
                  if match_token toks (pos + 1) .Not then do
                    let (_, p) ← expect toks (pos + 2) .Null
                    .ok (.IsNotNull, p)
                  else do
                    let (_, p) ← expect toks (pos + 1) .Null
                    .ok (.IsNull, p)
              | .In => do
                  let (_, p) ← expect toks (pos + 1) .LParen
                  let (values, p2) ←
                    if match_token toks p .RParen then
                      (.ok (([] : List Literal), p) : Except ParseError (List Literal × Nat))
                    else prev.in_values toks p []
                  let (_, p3) ← expect toks p2 .RParen
                  .ok (.In values, p3)
              | _ =>
                  if is_comparison_operator toks pos then do
                    let (op, p) ← parse_comparison_operator toks pos
                    let (value, p2) ← parse_literal toks p
                    .ok (.Comparison op value, p2)
                  else do
                    let (value, p) ← parse_literal toks pos
                    .ok (.Comparison .Eq value, p)
          | none => .error ⟨"Unexpected end of input", none⟩
        -- the IN-list `loop`: parse a literal, stop before a right paren,
        -- otherwise demand the (nonexistent) comma token
        in_values := fun toks pos acc => do
          let (value, p) ← parse_literal toks pos
          if match_token toks p .RParen then .ok (acc ++ [value], p)
          else do
            let _ ← expect_comma toks p
            prev.in_values toks (p + 1) (acc ++ [value])
        -- mirrors `parse_condition` (entry point of the condition grammar)
        cond := fun toks pos => prev.or_expr toks pos }

/-- Mirrors `parse_or_expression`. -/
def parse_or_expression (fuel : Nat) (toks : List Token) (pos : Nat) :
    Except ParseError (Condition × Nat) :=
  (cond_parsers fuel).or_expr toks pos

/-- Mirrors `parse_and_expression`. -/
def parse_and_expression (fuel : Nat) (toks : List Token) (pos : Nat) :
    Except ParseError (Condition × Nat) :=
  (cond_parsers fuel).and_expr toks pos

/-- Mirrors `parse_not_expression`. -/
def parse_not_expression (fuel : Nat) (toks : List Token) (pos : Nat) :
    Except ParseError (Condition × Nat) :=
  (cond_parsers fuel).not_expr toks pos

/-- Mirrors `parse_primary_expression`. -/
def parse_primary_expression (fuel : Nat) (toks : List Token) (pos : Nat) :
    Except ParseError (Condition × Nat) :=
  (cond_parsers fuel).primary toks pos

/-- The IN-list `loop` of `parse_primary_expression`. -/
def parse_in_values (fuel : Nat) (toks : List Token) (pos : Nat) (acc : List Literal) :
    Except ParseError (List Literal × Nat) :=
  (cond_parsers fuel).in_values toks pos acc

/-- Mirrors `parse_condition`. -/
def parse_condition (fuel : Nat) (toks : List Token) (pos : Nat) :
    Except ParseError (Condition × Nat) :=
  (cond_parsers fuel).cond toks pos

/-- Mirrors `parse_field_filter`: `IDENTIFIER LBRACKET condition RBRACKET`. -/
def parse_field_filter (fuel : Nat) (toks : List Token) (pos : Nat) :
    Except ParseError (FieldFilter × Nat) := do
  let (field_token, p1) ← expect toks pos (.Identifier "")
  match field_token.kind with
  | .Identifier name => do
      let (_, p2) ← expect toks p1 .LBracket
      let (condition, p3) ← parse_condition fuel toks p2
      let (_, p4) ← expect toks p3 .RBracket
      .ok ({ field := name, condition := condition }, p4)
  | _ => .error ⟨"Expected field identifier", some field_token.span⟩

/-- Mirrors `parse_field_filters_until_semicolon_or_crossfilter` (the
accumulator carries the filters parsed so far). -/
def parse_field_filters : Nat → List Token → Nat → List FieldFilter →
    Except ParseError (List FieldFilter × Nat)
  | 0, _, _, _ => .error ⟨"recursion limit reached", none⟩
  | fuel + 1, toks, pos, acc => do
      let (filter, p) ← parse_field_filter fuel toks pos
      let acc2 := acc ++ [filter]
      match toks.get? p with
      | some t =>
          match t.kind with
          | .Semicolon =>
              match toks.get? (p + 1) with
              | some next =>
                  if kind_tag next.kind = kind_tag .CrossFilter then .ok (acc2, p + 1)
                  else parse_field_filters fuel toks (p + 1) acc2
              | none => .ok (acc2, p + 1)
          | .CrossFilter => .ok (acc2, p)
          | k => .error ⟨"Expected semicolon or CrossFilter, found "
              ++ token_kind_debug k, some t.span⟩
      | none => .ok (acc2, p)

/-- Mirrors `parse_cross_filter`: `LT entityPair GT fieldFilter ...` where
the entity identifier is split on hyphens; the source only checks that the
split yields exactly two parts (they may be empty). -/
def parse_cross_filter : Nat → List Token → Nat → Except ParseError (CrossFilter × Nat)
  | 0, _, _ => .error ⟨"recursion limit reached", none⟩
  | fuel + 1, toks, pos => do
      let (_, p1) ← expect toks pos .Lt
      let (entity_token, p2) ← expect toks p1 (.Identifier "")
      match entity_token.kind with
      | .Identifier entity_name =>
          let parts := split_dash entity_name.toList
          if parts.length ≠ 2 then
            .error ⟨cross_err_msg entity_name, some entity_token.span⟩
          else do
            let source_entity := String.mk (parts.getD 0 [])
            let target_entity := String.mk (parts.getD 1 [])
            let (_, p3) ← expect toks p2 .Gt
            let (filters, p4) ← parse_field_filters fuel toks p3 []
            .ok ({ source_entity := source_entity, target_entity := target_entity,
                   filters := filters }, p4)
      | _ => .error ⟨"Expected entity identifier", some entity_token.span⟩

/-- The `while let Some(token) = self.peek()` loop of `Parser::parse`. -/
def parse_query_loop : Nat → List Token → Nat → List FieldFilter → List CrossFilter →
    Except ParseError Query
  | 0, _, _, _, _ => .error ⟨"recursion limit reached", none⟩
  | fuel + 1, toks, pos, base_filters, cross_filters =>
      match toks.get? pos with
      | none => .ok { base_filters := base_filters, cross_filters := cross_filters }
      | some t =>
          match t.kind with
          | .Filter => do
              let (filters, p) ← parse_field_filters fuel toks (pos + 1) []
              parse_query_loop fuel toks p (base_filters ++ filters) cross_filters
          | .CrossFilter => do
              let (cross_filter, p) ← parse_cross_filter fuel toks (pos + 1)
              parse_query_loop fuel toks p base_filters (cross_filters ++ [cross_filter])
          | k => .error ⟨"Unexpected token: " ++ token_kind_debug k, some t.span⟩

/-- Mirrors `Parser::parse`. -/
def parse (fuel : Nat) (toks : List Token) : Except ParseError Query :=
  parse_query_loop fuel toks 0 [] []

/-! ## Auxiliary definitions used by the statements below -/

/-- Whether an `Except` computation succeeded (Rust `Result::is_ok`). -/
def is_ok : Except ε α → Bool
  | .ok _ => true
  | .error _ => false

/-- The total value that `literal_to_value` wraps in `Ok` (every arm of the
source returns `Ok`). -/
def lit_value : Literal → Value
  | .String s => .String s
  | .Number n => .BigInt n
  | .Date d =>
      if d = "today" then .String "CURRENT_DATE"
      else if d = "yesterday" then .String ("CURRENT_DATE - INTERVAL " ++ sq ++ "1 day" ++ sq)
      else if d = "tomorrow" then .String ("CURRENT_DATE + INTERVAL " ++ sq ++ "1 day" ++ sq)
      else .String d
  | .CurrentUser => .String "CURRENT_USER"

/-- Total number of chunk statements the batch planner emits: one per chunk
of every collected oversized `In` condition. -/
def total_chunk_count (query : Query) (max_batch_size : Nat) : Nat :=
  ((find_large_in_conditions query max_batch_size).map
    (fun fv => (create_batches fv.2 max_batch_size).length)).sum

/-- The left-associated five-way equality chain
`"Open" OR "Pending" OR "Review" OR "Approved" OR "Testing"`. -/
def or5_chain : Condition :=
  .Or (.Or (.Or (.Or (.Comparison .Eq (.String "Open"))
    (.Comparison .Eq (.String "Pending")))
    (.Comparison .Eq (.String "Review")))
    (.Comparison .Eq (.String "Approved")))
    (.Comparison .Eq (.String "Testing"))

/-- The five status values of `or5_chain` as sea-query values. -/
def vals5 : List Value :=
  [.String "Open", .String "Pending", .String "Review", .String "Approved",
   .String "Testing"]

/-- A query whose single base filter holds an `In` of three numbers. -/
def q_in3 : Query :=
  { base_filters := [{ field := "id", condition := .In [.Number 1, .Number 2, .Number 3] }]
    cross_filters := [] }

/-- A query with two base filters, each holding an `In` of two numbers. -/
def q_two_ins : Query :=
  { base_filters :=
      [{ field := "a", condition := .In [.Number 1, .Number 2] },
       { field := "b", condition := .In [.Number 3, .Number 4] }]
    cross_filters := [] }

/-- A query with a single equality base filter on `status`. -/
def q_status_open : Query :=
  { base_filters := [{ field := "status", condition := .Comparison .Eq (.String "Open") }]
    cross_filters := [] }

/-- A compiler configured with a non-default table mapping
(`Test -> tests`) and batch processing disabled. -/
def compiler_mapped : SqlCompiler :=
  { optimizer := { config := OptimizationConfig.new }
    batch_processor := { config := { max_batch_size := 500, enable_batch_processing := false } }
    table_mapper := { mappings := [("Test", "tests")] } }

/-- The batch configuration `max_batch_size = 1`, batching enabled. -/
def batch_cfg1 : BatchConfig := { max_batch_size := 1, enable_batch_processing := true }

/-! ## Helper lemmas -/

instance [DecidableEq e] [DecidableEq a] : DecidableEq (Except e a) := fun x y =>
  match x, y with
  | .ok u, .ok v =>
      match decEq u v with
      | isTrue h => isTrue (h ▸ rfl)
      | isFalse h => isFalse (fun hc => h (by injection hc))
  | .error u, .error v =>
      match decEq u v with
      | isTrue h => isTrue (h ▸ rfl)
      | isFalse h => isFalse (fun hc => h (by injection hc))
  | .ok _, .error _ => isFalse (fun hc => Except.noConfusion hc)
  | .error _, .ok _ => isFalse (fun hc => Except.noConfusion hc)

theorem literal_to_value_eq (l : Literal) : literal_to_value l = .ok (lit_value l) := by
  cases l with
  | Date d =>
      simp only [literal_to_value, lit_value]
      split <;> try rfl
      split <;> try rfl
      split <;> rfl
  | _ => rfl

theorem collect_results_map (f : α → Except ε β) (g : α → β) (l : List α)
    (h : ∀ a ∈ l, f a = .ok (g a)) : collect_results f l = .ok (l.map g) := by
  induction l with
  | nil => rfl
  | cons a as ih =>
      have ha := h a (by simp)
      have ht := ih (fun x hx => h x (by simp [hx]))
      simp only [collect_results, ha, ht, List.map_cons]
      rfl

theorem collect_literal (l : List Literal) :
    collect_results literal_to_value l = .ok (l.map lit_value) :=
  collect_results_map _ _ _ (fun a _ => literal_to_value_eq a)

theorem collect_results_replicate (f : α → Except ε β) (a : α) (b : β)
    (h : f a = .ok b) (n : Nat) :
    collect_results f (List.replicate n a) = .ok (List.replicate n b) := by
  induction n with
  | zero => rfl
  | succ n ih =>
      simp only [List.replicate_succ, collect_results, h, ih]
      rfl

theorem list_chunks_go_length (n : Nat) (hn : 0 < n) (m : Nat) (l : List α)
    (hm : l.length ≤ m) :
    (list_chunks_go n m l).length = (l.length + n - 1) / n := by
  induction m generalizing l with
  | zero =>
      have hnil : l = [] := List.eq_nil_of_length_eq_zero (Nat.le_zero.mp hm)
      subst hnil
      simp [list_chunks_go, Nat.div_eq_of_lt (Nat.sub_lt hn Nat.one_pos)]
  | succ m ih =>
      cases l with
      | nil => simp [list_chunks_go, Nat.div_eq_of_lt (Nat.sub_lt hn Nat.one_pos)]
      | cons x xs =>
          rw [list_chunks_go, if_neg (Nat.pos_iff_ne_zero.mp hn)]
          have hdrop := ih ((x :: xs).drop n)
            (by simp only [List.length_drop, List.length_cons] at *; omega)
          rw [List.length_cons, hdrop, List.length_drop, List.length_cons]
          rcases le_or_lt (xs.length + 1) n with hle | hlt
          · have h0 : xs.length + 1 - n = 0 := by omega
            rw [h0]
            have hz : (0 + n - 1) / n = 0 := by
              exact Nat.div_eq_of_lt (by omega)
            rw [hz]
            have h1 : (xs.length + 1 + n - 1) / n = 1 := by
              apply Nat.div_eq_of_lt_le <;> omega
            omega
          · have heq : xs.length + 1 - n + n - 1 = xs.length + 1 - n - 1 + n := by omega
            rw [heq, Nat.add_div_right _ hn]
            have heq2 : xs.length + 1 + n - 1 = xs.length + 1 - 1 + n := by omega
            rw [heq2, Nat.add_div_right _ hn]
            have heq3 : xs.length + 1 - n - 1 = xs.length + 1 - 1 - n := by omega
            rw [heq3]
            have hfin : (xs.length + 1 - 1 - n) / n + 1 + 1 = (xs.length + 1 - 1) / n + 1 := by
              have := Nat.sub_add_cancel (Nat.le_of_lt hlt)
              have hd : (xs.length + 1 - 1 - n + n) / n = (xs.length + 1 - 1 - n) / n + 1 :=
                Nat.add_div_right _ hn
              have hc : xs.length + 1 - 1 - n + n = xs.length + 1 - 1 := by omega
              rw [hc] at hd
              omega
            omega

theorem list_chunks_length (n : Nat) (hn : 0 < n) (l : List α) :
    (list_chunks n l).length = (l.length + n - 1) / n :=
  list_chunks_go_length n hn l.length l (Nat.le_refl _)

theorem except_bind_ok (a : α) (f : α → Except ε β) :
    (do let x ← (Except.ok a : Except ε α); f x) = f a := rfl

theorem compile_comparison_ok (field : String) (op : CompOp) (value : Literal) :
    compile_comparison field op value = .ok (.Cmp field op (lit_value value)) := by
  simp only [compile_comparison, literal_to_value_eq]
  rfl

theorem try_optimize_or_to_in_ok (field : String) (condition : Condition)
    (config : OptimizationConfig) :
    ∃ o, try_optimize_or_to_in field condition config = .ok o := by
  simp only [try_optimize_or_to_in]
  split
  · exact ⟨_, by simp only [collect_literal]; rfl⟩
  · exact ⟨none, rfl⟩

theorem compile_condition_ok (config : OptimizationConfig) (field : String)
    (c : Condition) : ∃ p, compile_condition config field c = .ok p := by
  induction c with
  | Comparison op value =>
      exact ⟨_, by simp only [compile_condition, compile_comparison_ok]; rfl⟩
  | And left right ihl ihr =>
      obtain ⟨pl, hl⟩ := ihl
      obtain ⟨pr, hr⟩ := ihr
      exact ⟨_, by simp only [compile_condition, hl, hr]; rfl⟩
  | Or left right ihl ihr =>
      obtain ⟨o, ho⟩ := try_optimize_or_to_in_ok field (.Or left right) config
      obtain ⟨pl, hl⟩ := ihl
      obtain ⟨pr, hr⟩ := ihr
      cases o with
      | some p => exact ⟨_, by simp only [compile_condition, ho, hl, hr]; rfl⟩
      | none => exact ⟨_, by simp only [compile_condition, ho, hl, hr]; rfl⟩
  | Not inner ih =>
      obtain ⟨p, hp⟩ := ih
      exact ⟨_, by simp only [compile_condition, hp]; rfl⟩
  | Grouped inner ih =>
      obtain ⟨p, hp⟩ := ih
      exact ⟨_, by simp only [compile_condition, hp]; rfl⟩
  | In values =>
      simp only [compile_condition, collect_literal, except_bind_ok]
      split
      · exact ⟨_, rfl⟩
      · exact ⟨_, rfl⟩
  | IsNull => exact ⟨_, rfl⟩
  | IsNotNull => exact ⟨_, rfl⟩

theorem collect_results_ok (f : α → Except ε β) (l : List α)
    (h : ∀ a ∈ l, ∃ b, f a = .ok b) : ∃ bs, collect_results f l = .ok bs := by
  induction l with
  | nil => exact ⟨[], rfl⟩
  | cons a as ih =>
      obtain ⟨b, hb⟩ := h a (by simp)
      obtain ⟨bs, hbs⟩ := ih (fun x hx => h x (by simp [hx]))
      exact ⟨b :: bs, by simp only [collect_results, hb, hbs]; rfl⟩

theorem compile_field_filters_ok (self : SqlCompiler) (filters : List FieldFilter)
    (entity : String) : ∃ p, compile_field_filters self filters entity = .ok p := by
  obtain ⟨pairs, hpairs⟩ := collect_results_ok
    (fun filter => compile_condition self.optimizer.config
      (self.table_mapper.get_table_name entity ++ "." ++ filter.field) filter.condition)
    filters (fun filter _ => compile_condition_ok _ _ filter.condition)
  exact ⟨_, by simp only [compile_field_filters, hpairs, except_bind_ok]; rfl⟩

theorem compile_cross_filter_ok (self : SqlCompiler) (cross_filter : CrossFilter)
    (join_index : Nat) : ∃ p, compile_cross_filter self cross_filter join_index = .ok p := by
  obtain ⟨pairs, hpairs⟩ := collect_results_ok
    (fun filter => compile_condition self.optimizer.config
      ("joined_table_" ++ toString (join_index + 1) ++ "." ++ filter.field) filter.condition)
    cross_filter.filters (fun filter _ => compile_condition_ok _ _ filter.condition)
  exact ⟨_, by simp only [compile_cross_filter, hpairs, except_bind_ok]; rfl⟩

theorem compile_cross_loop_ok (self : SqlCompiler) (entity : String)
    (l : List CrossFilter) : ∀ join_index, ∃ p, compile_cross_loop self entity l join_index = .ok p := by
  induction l with
  | nil => exact fun _ => ⟨_, rfl⟩
  | cons cf rest ih =>
      intro join_index
      obtain ⟨pc, hpc⟩ := compile_cross_filter_ok self cf join_index
      obtain ⟨pr, hpr⟩ := ih (join_index + 1)
      exact ⟨_, by simp only [compile_cross_loop, hpc, hpr]; rfl⟩

theorem compile_ok (self : SqlCompiler) (query : Query) (entity : String) :
    ∃ r, self.compile query entity = .ok r := by
  obtain ⟨pc, hpc⟩ := compile_cross_loop_ok self entity query.cross_filters 0
  by_cases hb : query.base_filters.isEmpty
  · exact ⟨_, by simp only [SqlCompiler.compile, hb, hpc]; rfl⟩
  · obtain ⟨pf, hpf⟩ := compile_field_filters_ok self query.base_filters entity
    exact ⟨_, by simp only [SqlCompiler.compile, hb, hpf, hpc]; rfl⟩

theorem flatten_map_const (l : List α) (g : α → List β) (q : γ) :
    (l.map (fun x => (g x).map (fun _ => q))).flatten
      = List.replicate ((l.map (fun x => (g x).length)).sum) q := by
  have hmc : ∀ (m : List β), m.map (fun _ => q) = List.replicate m.length q := by
    intro m
    induction m with
    | nil => rfl
    | cons y ys ihy => simp [List.replicate_succ, ihy]
  induction l with
  | nil => rfl
  | cons x xs ih =>
      simp only [List.map_cons, List.flatten_cons, List.sum_cons, List.replicate_add]
      rw [hmc (g x), ih]

/-! ## Claim C1 -/

/-- C1: the claim states that when the flattened Or/Grouped chain contains
any non-equality leaf, the OR-to-membership rewrite does not fire at all and
the node compiles as a plain disjunction with no `OrToIn` entry.  The code
refutes this: for `(five-way equality chain) OR IS NULL` with the default
threshold 5, `collect_equality_values` skips the `IsNull` leaf but keeps the
five collected values, the rewrite fires, one `OrToIn` entry with
`value_count = 5` is logged, and the compiled predicate is a membership test
that silently drops the `IS NULL` disjunct. -/
theorem or_rewrite_fires_despite_isnull_leaf :
    compile_condition OptimizationConfig.new "t.status" (.Or or5_chain .IsNull)
      = .ok (.InList "t.status" vals5, [.OrToIn "t.status" 5]) := by rfl

/-! ## Claim C5 -/

/-- C5: compiling the left-associated five-way equality chain with
`max_or_conditions_for_in = 5` yields a single membership predicate over the
five values and exactly one `OrToIn` entry with `value_count = 5`; with
threshold 6 it yields the nested five-way disjunction and zero entries. -/
theorem or_chain_threshold_behaviour (field : String) :
    compile_condition { max_or_conditions_for_in := 5, max_in_values := 1000 }
        field or5_chain
      = .ok (.InList field vals5, [.OrToIn field 5])
    ∧ compile_condition { max_or_conditions_for_in := 6, max_in_values := 1000 }
        field or5_chain
      = .ok (.BinOr (.BinOr (.BinOr (.BinOr
            (.Cmp field .Eq (.String "Open"))
            (.Cmp field .Eq (.String "Pending")))
            (.Cmp field .Eq (.String "Review")))
            (.Cmp field .Eq (.String "Approved")))
            (.Cmp field .Eq (.String "Testing")), []) := by
  exact ⟨rfl, rfl⟩

/-! ## Claim C7 -/

/-- C7 counterexample: compiling `Grouped(c)` is NOT always equal to
compiling `c` itself: for the five-way equality chain under the default
config the inner compilation carries an `OrToIn` log entry, which the
`Grouped` arm discards (it keeps only the `.0` component of the pair). -/
theorem grouped_drops_inner_optimization_log :
    compile_condition OptimizationConfig.new "f" (.Grouped or5_chain)
      ≠ compile_condition OptimizationConfig.new "f" or5_chain := by decide

/-- C7 amended: compiling `Grouped(c)` yields the same predicate as
compiling `c`, but with an empty optimization log (the inner log entries are
discarded by the `Grouped` arm). -/
theorem grouped_compiles_to_inner_predicate_with_empty_log
    (config : OptimizationConfig) (field : String) (c : Condition) :
    compile_condition config field (.Grouped c)
      = (compile_condition config field c).map (fun p => (p.1, [])) := by
  simp only [compile_condition]
  cases h : compile_condition config field c <;> rfl

/-! ## Claim C2 -/

/-- C2: the claim states each emitted batch statement is the compilation of
the original AST with the oversized In list replaced by that statement's
chunk, distinct chunks yielding distinct statements.  The code refutes this:
`replace_in_condition_with_batch` has an empty body, so for a three-value In
with `max_batch_size = 1` the three chunks are pairwise distinct singletons
yet all three emitted statements are identical — each is the compilation of
the unchanged original query with the full three-value In list. -/
theorem batch_chunks_emit_identical_statements :
    compile_batch q_in3 "Task" batch_cfg1
      = (SqlCompiler.new.compile q_in3 "Task").map (fun r =>
          { queries := [r.sql, r.sql, r.sql]
            optimizations := [.InToUnion "batch_processing" 3 3]
            total_estimated_rows := some 3 })
    ∧ create_batches [Literal.Number 1, .Number 2, .Number 3] 1
        = [[.Number 1], [.Number 2], [.Number 3]] := by
  exact ⟨rfl, rfl⟩

/-! ## Claim C3 -/

/-- C3 counterexample: with two base filters each holding a two-value In and
`max_batch_size = 1`, the planner emits four statements, not the two chunks
of the first oversized node — `find_large_in_conditions` collects every
oversized In and `compile_batch` iterates over all of them. -/
theorem batch_statement_count_exceeds_first_chunking :
    (compile_batch q_two_ins "Task" batch_cfg1).map (fun r => r.queries.length)
      ≠ .ok ((create_batches [Literal.Number 1, .Number 2] 1).length) := by decide

/-- C3 amended: the planner scans the original AST (base filters first, then
cross filters, left to right) and collects EVERY filter whose condition
contains an In exceeding `max_batch_size`; it then emits one statement per
chunk of each collected value list (and, because the chunk replacement is a
no-op, every emitted statement is the default-configured compilation of the
unchanged original query). -/
theorem compile_batch_chunks_every_oversized_in (query : Query) (entity : String)
    (config : BatchConfig)
    (hen : config.enable_batch_processing = true)
    (_hpos : 0 < config.max_batch_size)
    (hne : find_large_in_conditions query config.max_batch_size ≠ []) :
    compile_batch query entity config =
      (SqlCompiler.new.compile query entity).map (fun r =>
        { queries := List.replicate (total_chunk_count query config.max_batch_size) r.sql
          optimizations :=
            (List.replicate (total_chunk_count query config.max_batch_size)
                r.optimizations).flatten
              ++ [.InToUnion "batch_processing"
                    (total_chunk_count query config.max_batch_size)
                    (total_chunk_count query config.max_batch_size)]
          total_estimated_rows :=
            some (total_chunk_count query config.max_batch_size * config.max_batch_size) }) := by
  obtain ⟨r, hr⟩ := compile_ok SqlCompiler.new query entity
  have hie : (find_large_in_conditions query config.max_batch_size).isEmpty = false := by
    rcases hfl : find_large_in_conditions query config.max_batch_size with _ | ⟨a, l⟩
    · exact absurd hfl hne
    · rfl
  have hq : ((find_large_in_conditions query config.max_batch_size).map (fun fv =>
        (create_batches fv.2 config.max_batch_size).map
          (fun batch => replace_in_condition_with_batch query fv.1 batch))).flatten
      = List.replicate (total_chunk_count query config.max_batch_size) query := by
    simpa only [replace_in_condition_with_batch, total_chunk_count] using
      flatten_map_const (find_large_in_conditions query config.max_batch_size)
        (fun fv => create_batches fv.2 config.max_batch_size) query
  have hcoll := collect_results_replicate (fun bq => SqlCompiler.new.compile bq entity)
    query r hr (total_chunk_count query config.max_batch_size)
  simp only [compile_batch, hen, Bool.not_true, Bool.false_eq_true, if_false, hie, hq,
    hcoll, except_bind_ok, hr, Except.map, List.map_replicate, List.length_replicate]

/-- C3 amended, witnessed at `q_two_ins` with `max_batch_size = 1`. -/
theorem compile_batch_chunks_every_oversized_in_witness :
    batch_cfg1.enable_batch_processing = true
    ∧ 0 < batch_cfg1.max_batch_size
    ∧ find_large_in_conditions q_two_ins batch_cfg1.max_batch_size ≠ []
    ∧ compile_batch q_two_ins "Task" batch_cfg1 =
        (SqlCompiler.new.compile q_two_ins "Task").map (fun r =>
          { queries := List.replicate (total_chunk_count q_two_ins batch_cfg1.max_batch_size) r.sql
            optimizations :=
              (List.replicate (total_chunk_count q_two_ins batch_cfg1.max_batch_size)
                  r.optimizations).flatten
                ++ [.InToUnion "batch_processing"
                      (total_chunk_count q_two_ins batch_cfg1.max_batch_size)
                      (total_chunk_count q_two_ins batch_cfg1.max_batch_size)]
            total_estimated_rows :=
              some (total_chunk_count q_two_ins batch_cfg1.max_batch_size
                * batch_cfg1.max_batch_size) }) :=
  ⟨rfl, by decide, by decide,
    compile_batch_chunks_every_oversized_in q_two_ins "Task" batch_cfg1 rfl
      (by decide) (by decide)⟩

/-! ## Claim C4 -/

/-- C4 counterexample: with a table mapping `Test -> tests` and batch
processing disabled, the Batch Planner's single statement is NOT identical to
the plain path's output for the same configuration — the planner compiles
through `SqlCompiler::new()` and so resolves `Test` to `test` instead of the
mapped `tests`. -/
theorem batch_disabled_differs_from_configured_plain_path :
    compiler_mapped.compile_batch_query q_status_open "Test"
      ≠ (compiler_mapped.compile q_status_open "Test").map (fun r =>
          { queries := [r.sql], optimizations := r.optimizations,
            total_estimated_rows := none }) := by decide

/-- C4 amended: with batch processing disabled the Batch Planner returns
exactly one statement, but it is the output of a DEFAULT-configured compiler
(`SqlCompiler::new()`: default optimization thresholds, empty table mapping),
so it coincides with the plain path only when the caller's configuration is
the default. -/
theorem batch_disabled_delegates_to_default_compiler (self : SqlCompiler)
    (query : Query) (entity : String)
    (h : self.batch_processor.config.enable_batch_processing = false) :
    self.compile_batch_query query entity =
      (SqlCompiler.new.compile query entity).map (fun r =>
        { queries := [r.sql], optimizations := r.optimizations,
          total_estimated_rows := none }) := by
  obtain ⟨r, hr⟩ := compile_ok SqlCompiler.new query entity
  simp only [SqlCompiler.compile_batch_query, compile_batch, h, Bool.not_false, if_true,
    hr, except_bind_ok, Except.map]

/-- C4 amended, witnessed at the mapped compiler with batching disabled. -/
theorem batch_disabled_delegates_to_default_compiler_witness :
    compiler_mapped.batch_processor.config.enable_batch_processing = false
    ∧ compiler_mapped.compile_batch_query q_status_open "Test" =
        (SqlCompiler.new.compile q_status_open "Test").map (fun r =>
          { queries := [r.sql], optimizations := r.optimizations,
            total_estimated_rows := none }) :=
  ⟨rfl, batch_disabled_delegates_to_default_compiler compiler_mapped q_status_open "Test" rfl⟩

/-! ## Claim C6 -/

/-- C6: compiling `In(values)` with `values.len() > max_in_values` splits the
mapped values into contiguous chunks of `max_in_values` (last chunk possibly
shorter), builds one membership predicate per chunk, combines the chunk
predicates with disjunction, and logs exactly one `InToUnion` entry whose
`total_values` is `values.len()` and whose `union_count` is the chunk count
`ceil(total/max)`.  (The positivity hypothesis on `max_in_values` excludes
the chunk size 0 on which the Rust `chunks` call panics.) -/
theorem large_in_splits_into_chunked_disjunction (field : String)
    (values : List Literal) (config : OptimizationConfig)
    (hpos : 0 < config.max_in_values)
    (hlen : values.length > config.max_in_values) :
    compile_condition config field (.In values) =
      .ok (reduce_or ((list_chunks config.max_in_values (values.map lit_value)).map
            (fun chunk => SimpleExpr.InList field chunk)),
        [.InToUnion field values.length
            ((values.length + config.max_in_values - 1) / config.max_in_values)]) := by
  simp only [compile_condition, collect_literal, except_bind_ok]
  rw [if_pos (show (values.map lit_value).length > config.max_in_values by
    simpa using hlen)]
  simp only [split_large_in_to_union]
  rw [list_chunks_length _ hpos, List.length_map]

/-- C6, witnessed at three values with `max_in_values = 2` (two chunks). -/
theorem large_in_splits_into_chunked_disjunction_witness :
    0 < ({ max_or_conditions_for_in := 5, max_in_values := 2 } : OptimizationConfig).max_in_values
    ∧ ([Literal.String "a", .String "b", .String "c"] : List Literal).length
        > ({ max_or_conditions_for_in := 5, max_in_values := 2 } : OptimizationConfig).max_in_values
    ∧ compile_condition { max_or_conditions_for_in := 5, max_in_values := 2 } "f"
          (.In [.String "a", .String "b", .String "c"])
        = .ok (reduce_or ((list_chunks 2 ([Literal.String "a", .String "b",
              .String "c"].map lit_value)).map (fun chunk => SimpleExpr.InList "f" chunk)),
            [.InToUnion "f" 3 2]) :=
  ⟨by decide, by decide,
    large_in_splits_into_chunked_disjunction "f"
      [.String "a", .String "b", .String "c"]
      { max_or_conditions_for_in := 5, max_in_values := 2 } (by decide) (by decide)⟩

/-! ## Claim C8 -/

/-- C8 counterexample: the claim requires both split parts to be non-empty,
but the source only checks the part count: the entity identifier `Test-`
splits into `["Test", ""]` and the clause parses successfully with an empty
target entity instead of failing. -/
theorem cross_filter_accepts_empty_split_part :
    parse 100 (tokenize "CrossFilter: <Test-> status[\"PASS\"]")
      = .ok ⟨[], [⟨"Test", "", [⟨"status", .Comparison .Eq (.String "PASS")⟩]⟩]⟩ := by rfl

/-- C8 amended: parsing a CrossFilter clause fails at the entity identifier
token's span (with no Query produced) exactly when splitting the identifier
on hyphens does not yield exactly two parts (no hyphen, or more than one);
the two parts may be empty, which the parser accepts. -/
theorem cross_filter_bad_entity_split_errors (fuel : Nat) (sp0 sp1 : Span)
    (name : String) (rest : List Token)
    (h : (split_dash name.toList).length ≠ 2) :
    parse_cross_filter (fuel + 1)
        ({ kind := .Lt, span := sp0 } :: { kind := .Identifier name, span := sp1 } :: rest) 0
      = .error { message := cross_err_msg name, span := some sp1 } := by
  simp only [parse_cross_filter, expect, List.get?, kind_tag, except_bind_ok,
    reduceIte, ite_true]
  rw [if_pos h]

/-- C8 amended, witnessed at the hyphen-free identifier `TestRun` (the
spec's own test input), at the spans the lexer produces for it. -/
theorem cross_filter_bad_entity_split_errors_witness :
    (split_dash "TestRun".toList).length ≠ 2
    ∧ parse_cross_filter 1
        [{ kind := .Lt, span := { start := 13, stop := 14 } },
         { kind := .Identifier "TestRun", span := { start := 14, stop := 21 } }] 0
      = .error { message := cross_err_msg "TestRun",
                 span := some { start := 14, stop := 21 } } :=
  ⟨by decide,
    cross_filter_bad_entity_split_errors 0 { start := 13, stop := 14 }
      { start := 14, stop := 21 } "TestRun" [] (by decide)⟩

/-! ## Claim C9 -/

/-- C9: the claim states the token vocabulary has a comma punctuation kind,
that `,` tokenizes to it, and that comma-separated IN lists parse.  The code
refutes all three: `TokenKind` in `token.rs` declares no comma kind, the
lexer's catch-all arm turns `,` into an `Illegal` token, and parsing
`Filter: status[IN ("Open", "Pending")]` fails at the first comma (the
parser demands a comma token kind that does not exist, while the parser's
own test `test_in_clause` requires this input to parse). -/
theorem comma_is_illegal_and_in_list_fails_to_parse :
    tokenize "," = [{ kind := .Illegal, span := { start := 0, stop := 1 } }]
    ∧ parse 100 (tokenize "Filter: status[IN (\"Open\", \"Pending\")]")
      = .error { message := "Expected Comma, found Illegal",
                 span := some { start := 25, stop := 26 } } := by
  exact ⟨rfl, by decide⟩

/-! ## Claim C10 -/

/-- C10: `SqlCompiler::compile` returns `Ok` for every query AST and entity:
`literal_to_value` returns `Ok` for every literal and every condition arm
compiles without error, so the `Err` branch of the result is unreachable.
(The positivity hypothesis on `max_in_values` excludes the configuration on
which the Rust `chunks(0)` call inside the In-splitting rule panics rather
than returning at all.) -/
theorem compile_always_returns_ok (self : SqlCompiler) (query : Query)
    (entity : String) (_hpos : 0 < self.optimizer.config.max_in_values) :
    is_ok (self.compile query entity) = true := by
  obtain ⟨r, hr⟩ := compile_ok self query entity
  simp [is_ok, hr]

/-- C10, witnessed at the default compiler on a one-filter query. -/
theorem compile_always_returns_ok_witness :
    0 < SqlCompiler.new.optimizer.config.max_in_values
    ∧ is_ok (SqlCompiler.new.compile q_status_open "Test") = true :=
  ⟨by decide, compile_always_returns_ok SqlCompiler.new q_status_open "Test" (by decide)⟩

end ReportDispatcher
